import Mathlib

/-!
# PollfishPlugin.h

A verification development for `src/ios/Plugin/PollfishPlugin.h`, the single
source file of the Pollfish plugin: a guarded header that declares the Lua
entry point `luaopen_plugin_pollfish`.

The header is embedded verbatim, line by line.  A small lexer, a model of the
preprocessor directives the header uses, and a reader of function prototypes
turn the text into the objects the properties speak about.
-/

namespace PollfishPlugin

/-! ## The source text -/

/-- The text of `src/ios/Plugin/PollfishPlugin.h`, one string per line. -/
def headerLines : List String :=
  [ "//",
    "//  PollfishPlugin.h",
    "//  Pollfish Plugin",
    "//",
    "//  Copyright (c) 2016 Corona Labs Inc. All rights reserved.",
    "//",
    "",
    "#ifndef _pollfish_h_",
    "#define _pollfish_h_",
    "",
    "#import \"CoronaLua.h\"",
    "#import \"CoronaMacros.h\"",
    "",
    "// This corresponds to the name of the library, e.g. [Lua] require \"plugin.library\"",
    "// where the '.' is replaced with '_'",
    "CORONA_EXPORT int luaopen_plugin_pollfish(lua_State *L);",
    "",
    "#endif // _pollfish_h_" ]

/-! ## Lexing -/

/-- The double-quote character, which delimits a string literal. -/
def dquote : Char := Char.ofNat 34

/-- Characters of an identifier or number. -/
def isIdentChar (c : Char) : Bool := c.isAlphanum || c == '_'

/-- Remove a `//` comment from a line; `inStr` tells whether the scan is inside
a string literal, where `//` does not start a comment. -/
def stripComment : List Char → Bool → List Char
  | [], _ => []
  | c :: cs, inStr =>
    if !inStr && c == '/' && cs.head? == some '/' then []
    else c :: stripComment cs (if c == dquote then !inStr else inStr)

/-- Push the pending word (held reversed) on the reversed token list. -/
def flush (word : List Char) (acc : List String) : List String :=
  if word.isEmpty then acc else String.mk word.reverse :: acc

/-- Split a comment-free line into tokens: identifiers, string literals (quotes
kept) and single punctuation characters; white space separates. -/
def lexAux : List Char → Bool → List Char → List String → List String
  | [], _, word, acc => (flush word acc).reverse
  | c :: cs, true, word, acc =>
    if c == dquote then lexAux cs false [] (String.mk (c :: word).reverse :: acc)
    else lexAux cs true (c :: word) acc
  | c :: cs, false, word, acc =>
    if c == dquote then lexAux cs true [c] (flush word acc)
    else if isIdentChar c then lexAux cs false (c :: word) acc
    else if c.isWhitespace then lexAux cs false [] (flush word acc)
    else lexAux cs false [] (String.mk [c] :: flush word acc)

/-- The tokens of one source line, its comment removed. -/
def lexLine (line : String) : List String :=
  lexAux (stripComment line.data false) false [] []

/-- The token lines of the header. -/
def headerTokens : List (List String) := headerLines.map lexLine

/-! ## Preprocessor lines -/

/-- A source line as the preprocessor sees it. -/
inductive Line where
  | blank
  | ifndef (name : String)
  | ifdef (name : String)
  | otherwise
  | endif
  | define (name : String) (body : List String)
  | undef (name : String)
  | importFile (file : String)
  | unknown (tokens : List String)
  | text (tokens : List String)
  deriving DecidableEq, Repr

/-- Read a directive, given the tokens after `#`. -/
def classifyDirective : List String → Line
  | [] => .blank
  | [d] =>
    if d == "endif" then .endif
    else if d == "else" then .otherwise
    else .unknown [d]
  | d :: a :: rest =>
    if d == "ifndef" then .ifndef a
    else if d == "ifdef" then .ifdef a
    else if d == "define" then .define a rest
    else if d == "undef" then .undef a
    else if d == "import" || d == "include" then .importFile a
    else if d == "endif" then .endif
    else if d == "else" then .otherwise
    else .unknown (d :: a :: rest)

/-- Classify a token line: a line whose first token is `#` is a directive. -/
def classify : List String → Line
  | [] => .blank
  | t :: rest => if t == "#" then classifyDirective rest else .text (t :: rest)

/-- The header as a list of preprocessor lines. -/
def header : List Line := headerTokens.map classify

/-! ## Preprocessing -/

/-- What preprocessing hands on to the compiler. -/
inductive Item where
  | imported (file : String)
  | code (tokens : List String)
  deriving DecidableEq, Repr

/-- The preprocessor's state in a translation unit: the macros defined so far,
the truth of each enclosing conditional (innermost first), and the output. -/
structure PPState where
  defined : List String
  conds : List Bool
  out : List Item
  deriving DecidableEq, Repr

/-- The state at the start of a translation unit. -/
def PPState.init : PPState := ⟨[], [], []⟩

/-- Lines are live when every enclosing conditional holds. -/
def PPState.active (s : PPState) : Bool := s.conds.all id

/-- Process one line. -/
def step (s : PPState) : Line → PPState
  | .blank => s
  | .ifndef m => { s with conds := (!s.defined.contains m) :: s.conds }
  | .ifdef m => { s with conds := s.defined.contains m :: s.conds }
  | .otherwise =>
    match s.conds with
    | [] => s
    | b :: bs => { s with conds := (!b) :: bs }
  | .endif => { s with conds := s.conds.tail }
  | .define m _ => if s.active then { s with defined := m :: s.defined } else s
  | .undef m => if s.active then { s with defined := s.defined.filter (· != m) } else s
  | .importFile f => if s.active then { s with out := s.out ++ [.imported f] } else s
  | .unknown _ => s
  | .text ts => if s.active then { s with out := s.out ++ [.code ts] } else s

/-- Process a list of lines in order. -/
def run (s : PPState) (ls : List Line) : PPState := ls.foldl step s

/-- Include the header at the current point of a translation unit. -/
def includeHeader (s : PPState) : PPState := run s header

/-! ## Function prototypes -/

/-- A parameter of a prototype: the tokens of its type and its name, if any. -/
structure Param where
  type : List String
  name : Option String
  deriving DecidableEq, Repr

/-- A function prototype: the declaration specifiers before the name, the
name, and the parameters. -/
structure Prototype where
  specifiers : List String
  name : String
  params : List Param
  deriving DecidableEq, Repr

/-- Whether a token is an identifier (it starts with a letter or `_`). -/
def isIdent (t : String) : Bool :=
  match t.data with
  | [] => false
  | c :: cs => (c.isAlpha || c == '_') && cs.all isIdentChar

/-- Split a token list at the first occurrence of `sep`; `none` when absent. -/
def splitAt1 (sep : String) : List String → Option (List String × List String)
  | [] => none
  | t :: ts =>
    if t == sep then some ([], ts)
    else (splitAt1 sep ts).map (fun p => (t :: p.1, p.2))

/-- Split a token list at every occurrence of `sep`. -/
def splitAll (sep : String) : List String → List (List String)
  | [] => [[]]
  | t :: ts =>
    if t == sep then [] :: splitAll sep ts
    else
      match splitAll sep ts with
      | [] => [[t]]
      | g :: gs => (t :: g) :: gs

/-- Read one parameter: a trailing identifier after at least one type token is
the parameter's name. -/
def parseParam (ts : List String) : Param :=
  match ts.getLast? with
  | some l => if 2 ≤ ts.length && isIdent l then ⟨ts.dropLast, some l⟩ else ⟨ts, none⟩
  | none => ⟨ts, none⟩

/-- Read a parameter list; `()` and `(void)` declare no parameter. -/
def parseParams (ts : List String) : List Param :=
  if ts == [] || ts == ["void"] then [] else (splitAll "," ts).map parseParam

/-- Read `specifiers name ( params ) ;`.  Anything else (a body, an initialiser,
a declaration without parentheses) is not a prototype. -/
def parsePrototype (ts : List String) : Option Prototype :=
  match splitAt1 "(" ts with
  | none => none
  | some (before, after) =>
    match before.getLast?, splitAt1 ")" after with
    | some n, some (ps, rest) =>
      if isIdent n && before.dropLast != [] && rest == [";"]
      then some ⟨before.dropLast, n, parseParams ps⟩ else none
    | _, _ => none

/-- The code an item carries, if it is code. -/
def Item.tokens? : Item → Option (List String)
  | .code ts => some ts
  | .imported _ => none

/-- The code lines that a first inclusion of the header contributes. -/
def headerCode : List (List String) := (includeHeader .init).out.filterMap Item.tokens?

/-- The function prototypes the header declares. -/
def headerPrototypes : List Prototype := headerCode.filterMap parsePrototype

/-- Storage-class and function specifiers of C. -/
def storageSpecifiers : List String :=
  ["static", "extern", "inline", "register", "auto", "typedef"]

/-- Modelled from the spec: `CORONA_EXPORT` is a macro of `CoronaMacros.h`, which
is not among the sources.  The specification calls the declaration a "C-linkage
export declaration", so the macro is a linkage qualifier and no part of the
return type. -/
def exportMacros : List String := ["CORONA_EXPORT"]

/-- Specifiers that are no part of a type; the remaining specifiers of a
prototype spell its return type. -/
def nonTypeSpecifiers : List String := storageSpecifiers ++ exportMacros

/-- The return type of a prototype. -/
def Prototype.returnType (p : Prototype) : List String :=
  p.specifiers.filter (fun t => !(nonTypeSpecifiers.contains t))

/-! ## The loader's naming convention -/

/-- Replace every `.` of a string by `_`. -/
def dotsToUnderscores (s : String) : String :=
  String.mk (s.data.map (fun c => if c == '.' then '_' else c))

/-- The entry-point name the header's comment describes for a library required
as `modulePath`: `luaopen_`, then the path with each `.` replaced by `_`. -/
def loaderEntryName (modulePath : String) : String :=
  "luaopen_" ++ dotsToUnderscores modulePath

/-- The pattern `luaopen_plugin_<name>` as the specification words it: the
fixed text `luaopen_plugin_`, then `name` with each `.` replaced by `_`. -/
def patternEntryName (name : String) : String :=
  "luaopen_plugin_" ++ dotsToUnderscores name

/-! ## Shape of the header -/

/-- The include-guard macro of the header. -/
def guardMacro : String := "_pollfish_h_"

/-- The lines of the header that are not blank (comments lex to blank lines). -/
def significantLines : List Line := header.filter (fun l => l != .blank)

/-- Whether a line is an import or a line of code. -/
def Line.isContent : Line → Bool
  | .importFile _ => true
  | .text _ => true
  | _ => false

/-- The macro a line defines, with its replacement tokens. -/
def Line.defines? : Line → Option (String × List String)
  | .define m body => some (m, body)
  | _ => none

/-- The tokens of a line of code. -/
def Line.code? : Line → Option (List String)
  | .text ts => some ts
  | _ => none

/-- Every token of the header outside comments. -/
def allTokens : List String := headerTokens.flatten

/-- Tokens that open a function body, an initialiser, or a type or variable
definition: braces, `=`, and the keywords of C and Objective-C that introduce a
type or an implementation. -/
def definingTokens : List String :=
  ["\x7b", "\x7d", "=", "typedef", "struct", "union", "enum", "class", "@", "const"]

/-! ## The entry point's behaviour -/

/-- A value on the interpreter stack; a table is described by its keys. -/
inductive LuaValue where
  | nil
  | boolean (b : Bool)
  | number (n : Int)
  | string (s : String)
  | function (name : String)
  | table (keys : List String)
  deriving DecidableEq, Repr

/-- An interpreter state: its value stack, top first. -/
structure LuaState where
  stack : List LuaValue
  deriving DecidableEq, Repr

/-- Modelled from the spec: the body of `luaopen_plugin_pollfish` is in the
plugin's implementation file, which is not among the sources; the header only
declares it.  Per the specification the call leaves values for the interpreter
to consume and returns "an integer indicating how many values were left", "1
when a single module table/namespace object is produced".  `produced` stands for
the values the body leaves, in the order it pushes them. -/
def luaopen_plugin_pollfish (produced : List LuaValue) (L : LuaState) : Int × LuaState :=
  (produced.length, ⟨produced.reverse ++ L.stack⟩)

/-! ## Results -/

/-- The header, line by line, as the preprocessor reads it. -/
theorem header_eq :
    header =
      [ .blank, .blank, .blank, .blank, .blank, .blank, .blank,
        Line.ifndef "_pollfish_h_",
        .define "_pollfish_h_" [],
        .blank,
        .importFile "\"CoronaLua.h\"",
        .importFile "\"CoronaMacros.h\"",
        .blank, .blank, .blank,
        .text ["CORONA_EXPORT", "int", "luaopen_plugin_pollfish", "(", "lua_State", "*", "L",
          ")", ";"],
        .blank,
        .endif ] := by
  decide

/-- Replacing dots distributes over concatenation. -/
theorem dotsToUnderscores_append (a b : String) :
    dotsToUnderscores (a ++ b) = dotsToUnderscores a ++ dotsToUnderscores b := by
  apply String.ext
  simp [dotsToUnderscores, String.data_append]

/-- C1: the header declares a function named exactly `luaopen_plugin_pollfish`
(and no other), and that declaration carries the `CORONA_EXPORT` qualifier and
is not declared `static`. -/
theorem C1_entry_point_exported :
    headerPrototypes.map Prototype.name = ["luaopen_plugin_pollfish"] ∧
      ∀ p ∈ headerPrototypes, "CORONA_EXPORT" ∈ p.specifiers ∧ "static" ∉ p.specifiers := by
  decide

/-- C2: the name derived from the module path `plugin.pollfish` (`luaopen_`, then
the path with every `.` replaced by `_`) is the name the header declares, and the
derived name contains no `.`. -/
theorem C2_name_matches_loader_convention :
    headerPrototypes.map Prototype.name = [loaderEntryName "plugin.pollfish"] ∧
      '.' ∉ (loaderEntryName "plugin.pollfish").data := by
  decide

/-- C3 as stated fails: `luaopen_plugin_` followed by the module path
`plugin.pollfish` with dots replaced is `luaopen_plugin_plugin_pollfish`, which is
not the name the header declares. -/
theorem C3_pattern_on_full_path_differs :
    patternEntryName "plugin.pollfish" = "luaopen_plugin_plugin_pollfish" ∧
      headerPrototypes.map Prototype.name ≠ [patternEntryName "plugin.pollfish"] := by
  decide

/-- C3 amended: the declared name follows the pattern `luaopen_plugin_<name>`
where `<name>` is the part of the module path after its leading `plugin.`
component, dots replaced by underscores (here `pollfish`); for every path of the
form `plugin.<rest>` this is the name the loader convention derives from the
whole path. -/
theorem C3_pattern_on_plugin_name :
    "plugin.pollfish" = "plugin." ++ "pollfish" ∧
      headerPrototypes.map Prototype.name = [patternEntryName "pollfish"] ∧
      ∀ rest : String, loaderEntryName ("plugin." ++ rest) = patternEntryName rest := by
  refine ⟨by decide, by decide, fun rest => ?_⟩
  have h : "luaopen_" ++ dotsToUnderscores "plugin." = "luaopen_plugin_" := by decide
  simp only [loaderEntryName, patternEntryName, dotsToUnderscores_append, ← h, String.append_assoc]

/-- C4: the declared signature of `luaopen_plugin_pollfish` is that of a Lua
native function: return type `int` and exactly one parameter, of type
`lua_State *`. -/
theorem C4_signature_is_lua_CFunction :
    headerPrototypes.map (fun p => (p.name, p.returnType, p.params.map Param.type)) =
        [("luaopen_plugin_pollfish", ["int"], [["lua_State", "*"]])] ∧
      ∀ p ∈ headerPrototypes, p.params.length = 1 := by
  decide

/-! ### The include guard -/

/-- Where the guard macro is already defined, including the header changes
nothing. -/
theorem includeHeader_of_defined (s : PPState) (h : guardMacro ∈ s.defined) :
    includeHeader s = s := by
  have hc : s.defined.contains "_pollfish_h_" = true := by
    simpa [guardMacro] using h
  cases s
  simp_all [includeHeader, run, header_eq, step, PPState.active]

/-- Inside a conditional that does not hold, including the header changes
nothing. -/
theorem includeHeader_of_inactive (s : PPState) (h : s.active = false) :
    includeHeader s = s := by
  cases s
  simp_all [includeHeader, run, header_eq, step, PPState.active]

/-- A first, live inclusion defines the guard and hands on the two imports and
the prototype. -/
theorem includeHeader_of_fresh (s : PPState) (ha : s.active = true)
    (hn : guardMacro ∉ s.defined) :
    includeHeader s =
      { defined := guardMacro :: s.defined
        conds := s.conds
        out := s.out ++
          [ .imported "\"CoronaLua.h\"", .imported "\"CoronaMacros.h\"",
            .code ["CORONA_EXPORT", "int", "luaopen_plugin_pollfish", "(", "lua_State", "*",
              "L", ")", ";"] ] } := by
  have hc : s.defined.contains "_pollfish_h_" = false := by
    simpa [guardMacro] using hn
  cases s
  simp_all [includeHeader, run, header_eq, step, PPState.active, guardMacro]

/-- After a live inclusion the guard macro is defined. -/
theorem guard_defined_after_include (s : PPState) (ha : s.active = true) :
    guardMacro ∈ (includeHeader s).defined := by
  by_cases h : guardMacro ∈ s.defined
  · rw [includeHeader_of_defined s h]; exact h
  · rw [includeHeader_of_fresh s ha h]; simp

/-- Including the header twice in a row is the same as including it once. -/
theorem includeHeader_idem (s : PPState) :
    includeHeader (includeHeader s) = includeHeader s := by
  cases ha : s.active
  · rw [includeHeader_of_inactive s ha, includeHeader_of_inactive s ha]
  · exact includeHeader_of_defined _ (guard_defined_after_include s ha)

/-- A line other than `#undef` of the guard leaves the guard defined. -/
theorem step_keeps_guard (s : PPState) (l : Line) (hl : l ≠ .undef guardMacro)
    (h : guardMacro ∈ s.defined) : guardMacro ∈ (step s l).defined := by
  cases l with
  | otherwise =>
    cases hc : s.conds <;> simp [step, hc, h]
  | define m body =>
    by_cases ha : s.active = true <;> simp [step, ha, h]
  | undef m =>
    have hm : guardMacro ≠ m := fun e => hl (by rw [e])
    by_cases ha : s.active = true <;> simp [step, ha, h, hm]
  | importFile f =>
    by_cases ha : s.active = true <;> simp [step, ha, h]
  | text ts =>
    by_cases ha : s.active = true <;> simp [step, ha, h]
  | _ => simpa [step] using h

/-- Lines that never undefine the guard leave the guard defined. -/
theorem run_keeps_guard (ls : List Line) (hl : ∀ l ∈ ls, l ≠ .undef guardMacro) :
    ∀ s : PPState, guardMacro ∈ s.defined → guardMacro ∈ (run s ls).defined := by
  induction ls with
  | nil => intro s h; simpa [run] using h
  | cons l ls ih =>
    intro s h
    have h1 := step_keeps_guard s l (hl l (by simp)) h
    have h2 := ih (fun x hx => hl x (by simp [hx])) (step s l) h1
    simpa [run] using h2

/-- Running a concatenation is running its parts in turn. -/
theorem run_append (s : PPState) (xs ys : List Line) :
    run s (xs ++ ys) = run (run s xs) ys := by
  simp [run, List.foldl_append]

/-- C5: inclusion of the header is idempotent.  The macro `#ifndef` tests is the
macro `_pollfish_h_` that the next line defines, and every import and line of
code lies between that `#ifndef` and the closing `#endif`.  So where the guard is
defined the header contributes nothing; a live inclusion defines the guard;
including twice equals including once, also with other lines in between that do
not undefine the guard; and two inclusions yield the prototype once. -/
theorem C5_include_guard_idempotent :
    (∃ body : List Line,
        significantLines =
          Line.ifndef "_pollfish_h_" :: .define "_pollfish_h_" [] :: (body ++ [.endif]) ∧
        body.all Line.isContent = true ∧ header.filter Line.isContent = body) ∧
      (∀ s : PPState, guardMacro ∈ s.defined → includeHeader s = s) ∧
      (∀ s : PPState, s.active = true → guardMacro ∈ (includeHeader s).defined) ∧
      (∀ s : PPState, includeHeader (includeHeader s) = includeHeader s) ∧
      (∀ (s : PPState) (mid : List Line), s.active = true →
        (∀ l ∈ mid, l ≠ .undef guardMacro) →
        run s (header ++ mid ++ header) = run s (header ++ mid)) ∧
      (includeHeader (includeHeader .init)).out.filterMap Item.tokens? =
        [["CORONA_EXPORT", "int", "luaopen_plugin_pollfish", "(", "lua_State", "*", "L", ")",
          ";"]] := by
  refine ⟨⟨[.importFile "\"CoronaLua.h\"", .importFile "\"CoronaMacros.h\"",
      .text ["CORONA_EXPORT", "int", "luaopen_plugin_pollfish", "(", "lua_State", "*", "L", ")",
        ";"]], by decide, by decide, by decide⟩,
    includeHeader_of_defined, guard_defined_after_include, includeHeader_idem, ?_, by decide⟩
  intro s mid ha hmid
  rw [run_append]
  exact includeHeader_of_defined _
    (by
      rw [run_append]
      exact run_keeps_guard mid hmid _ (guard_defined_after_include s ha))

/-- C5 at a concrete translation unit: the header, a line of code, the header
again, from the initial state. -/
theorem C5_include_guard_idempotent_at_init :
    run .init (header ++ [.text ["int", "x", ";"]] ++ header) =
      run .init (header ++ [.text ["int", "x", ";"]]) :=
  C5_include_guard_idempotent.2.2.2.2.1 .init [.text ["int", "x", ";"]] (by decide) (by decide)

/-- C6: the header contains exactly one function prototype and no logic.  Its
only line of code is the prototype of `luaopen_plugin_pollfish`; every line of
code is a prototype; no token opens a body, an initialiser or a type definition;
and the only macro it defines is the guard, with an empty replacement. -/
theorem C6_single_prototype_no_logic :
    header.filterMap Line.code? = headerCode ∧
      headerCode =
        [["CORONA_EXPORT", "int", "luaopen_plugin_pollfish", "(", "lua_State", "*", "L", ")",
          ";"]] ∧
      headerPrototypes.map Prototype.name = ["luaopen_plugin_pollfish"] ∧
      headerCode.map parsePrototype = headerPrototypes.map some ∧
      (∀ t ∈ definingTokens, t ∉ allTokens) ∧
      header.filterMap Line.defines? = [(guardMacro, [])] := by
  decide

/-- C7: for every interpreter state, the call returns the number of values it
left on the stack (the stack grows by the returned count, above the old stack),
and the count is 1 when it produces a single module table. -/
theorem C7_returns_number_of_values_left (produced : List LuaValue) (L : LuaState) :
    ((luaopen_plugin_pollfish produced L).2.stack.length : Int) =
        L.stack.length + (luaopen_plugin_pollfish produced L).1 ∧
      (luaopen_plugin_pollfish produced L).2.stack.drop produced.length = L.stack ∧
      ∀ keys : List String, produced = [.table keys] →
        (luaopen_plugin_pollfish produced L).1 = 1 := by
  refine ⟨?_, ?_, ?_⟩
  · simp [luaopen_plugin_pollfish]; omega
  · have h : produced.length = produced.reverse.length := by simp
    simp only [luaopen_plugin_pollfish]
    rw [h, List.drop_left]
  · intro keys h
    simp [luaopen_plugin_pollfish, h]

/-- C7 at a concrete call: a single module table on an empty stack. -/
theorem C7_single_module_table :
    (luaopen_plugin_pollfish [.table []] ⟨[]⟩).1 = 1 :=
  (C7_returns_number_of_values_left [.table []] ⟨[]⟩).2.2 [] rfl

end PollfishPlugin

